import Mathlib

/-!
Verification development for the video-to-ascii repository.

The definitions below are a shallow embedding of the JavaScript source:

* `ASCIIConverter` in `ascii-converter.js` (the rendering entry points
  `processFrame` and `renderASCII`),
* `WASMProcessor.setupJSFallback` (the CPU-path pixel processor
  `processPixels`),
* `VideoExporter` (the capture/encode pipeline: `startExport`,
  `ondataavailable`, `onerror`, `stopExport`, `getSupportedMimeType`),
* `VideoToASCIIApp` in `main.js` (`startExport`, `finishExport`).

JavaScript numbers are modelled as `ℚ` (the decimal literals 0.299, 0.587,
0.114 are exact rationals), byte stores into a `Uint8Array` as `% 256` on
`ℕ`, and `Math.floor` as `Int.floor` / `ℕ` division.  Frames are total
functions `ℕ → ℕ` giving the flattened RGBA byte array, exactly as the
source indexes `pixels[(py * width + px) * 4 + channel]`.
-/

/-- Default character ramp of `ASCIIConverter`: the string `' .:-=+*#%@'`. -/
def asciiChars : List Char := [' ', '.', ':', '-', '=', '+', '*', '#', '%', '@']

/-- Luminance from `calculateBrightness` and from the inlined expressions in
`processPixels` / `renderASCII`: `(r * 0.299 + g * 0.587 + b * 0.114) / 255`. -/
def calculateBrightness (r g b : ℕ) : ℚ :=
  ((r : ℚ) * (299 / 1000) + (g : ℚ) * (587 / 1000) + (b : ℚ) * (114 / 1000)) / 255

/-- Character selection used at `renderASCII` line 141 and `processPixels`
line 342: `Math.floor(brightness * (asciiChars.length - 1))`.  The source
applies no clamping. -/
def glyphIndexOf (brightness : ℚ) (rampLen : ℕ) : ℤ :=
  Int.floor (brightness * ((rampLen : ℚ) - 1))

/-- One RGBA slot of the `Uint8Array` produced by `processPixels`:
mean red, mean green, mean blue, and the glyph index byte. -/
structure Cell where
  r : ℕ
  g : ℕ
  b : ℕ
  glyph : ℕ
deriving DecidableEq

/-- Sample coordinates of one character cell in `processPixels`: the two inner
loops enumerate offsets `x, y ∈ [0, charSize)` and keep the positions
`(cx*charSize+x, cy*charSize+y)` that satisfy `px < width && py < height`. -/
def cellSamples (width height charSize cx cy : ℕ) : List (ℕ × ℕ) :=
  ((List.range charSize).flatMap fun y =>
    (List.range charSize).map fun x => (cx * charSize + x, cy * charSize + y)).filter
    fun p => decide (p.1 < width ∧ p.2 < height)

/-- Body of the cell loop of `processPixels` (lines 312-345): accumulate the
in-bounds pixels of the cell, and when `count > 0` store the three channel
means `Math.floor(sum / count)` and the glyph byte
`Math.floor(brightness * (asciiChars.length - 1))`; when `count = 0` the
output slot keeps the `Uint8Array` zero fill. -/
def processCell (pixels : ℕ → ℕ) (width height charSize rampLen : ℕ)
    (cx cy : ℕ) : Cell :=
  let samples := cellSamples width height charSize cx cy
  let count := samples.length
  if 0 < count then
    let rsum := (samples.map fun p => pixels ((p.2 * width + p.1) * 4)).sum
    let gsum := (samples.map fun p => pixels ((p.2 * width + p.1) * 4 + 1)).sum
    let bsum := (samples.map fun p => pixels ((p.2 * width + p.1) * 4 + 2)).sum
    let mr := rsum / count % 256
    let mg := gsum / count % 256
    let mb := bsum / count % 256
    let brightness := calculateBrightness mr mg mb
    { r := mr, g := mg, b := mb, glyph := (glyphIndexOf brightness rampLen).toNat % 256 }
  else
    { r := 0, g := 0, b := 0, glyph := 0 }

/-- The CPU-path pixel processor `WASMProcessor.setupJSFallback.processPixels`
(lines 301-348).  It computes `charWidth = Math.floor(width / charSize)`,
`charHeight = Math.floor(height / charSize)` and fills one RGBA slot per cell
in row-major order.  The option `colorAccuracy` is destructured from
`options` by the source but never used in the body; it is kept here as a
parameter for fidelity. -/
def processPixels (pixels : ℕ → ℕ) (width height charSize : ℕ)
    (colorAccuracy : ℚ) (rampLen : ℕ) : List Cell :=
  (List.range (height / charSize)).flatMap fun cy =>
    (List.range (width / charSize)).map fun cx =>
      processCell pixels width height charSize rampLen cx cy

/-- Grid dimensions computed by `ASCIIConverter.processFrame` (lines 54-56):
`charWidth = Math.floor(video.videoWidth / fontSize)` and
`charHeight = Math.floor(video.videoHeight / fontSize)`. -/
def processFrameDims (videoWidth videoHeight fontSize : ℕ) : ℕ × ℕ :=
  (videoWidth / fontSize, videoHeight / fontSize)

/-- One drawn character of `renderASCII`: the fill color components and the
glyph looked up by `this.asciiChars[charIndex]` (`none` models the JavaScript
`undefined` for an out-of-range string index). -/
structure RenderedCell where
  colorR : ℕ
  colorG : ℕ
  colorB : ℕ
  glyph : Option Char
deriving DecidableEq

/-- The `Uint8Array` branch of `ASCIIConverter.renderASCII` (lines 120-128):
for each cell it reads `r, g, b, charIndex` from the processed data, sets
`fillStyle` to `rgb(r,g,b)` and draws `this.asciiChars[charIndex]`.  The
`colorAccuracy` setting is in scope in `renderASCII` but this branch never
reads it; it is kept as a parameter for fidelity. -/
def renderASCIIProcessed (data : List Cell) (colorAccuracy : ℚ) : List RenderedCell :=
  data.map fun c =>
    { colorR := c.r, colorG := c.g, colorB := c.b, glyph := asciiChars.get? c.glyph }

/-- The full CPU path of `ASCIIConverter.processFrame` when WebGL is
unavailable: `processPixels` followed by the `Uint8Array` branch of
`renderASCII`. -/
def cpuPathRender (pixels : ℕ → ℕ) (width height charSize : ℕ)
    (colorAccuracy : ℚ) : List RenderedCell :=
  renderASCIIProcessed
    (processPixels pixels width height charSize colorAccuracy asciiChars.length)
    colorAccuracy

/-- Blended color of the non-processed fallback branch of `renderASCII`
(lines 140-146): the sampled pixel color is mixed with its brightness-derived
gray using `Math.floor(c * colorAccuracy + brightness * 255 * (1 - colorAccuracy))`
per channel. -/
def renderFallbackColor (r g b : ℕ) (colorAccuracy : ℚ) : ℤ × ℤ × ℤ :=
  let brightness := calculateBrightness r g b
  (Int.floor ((r : ℚ) * colorAccuracy + brightness * 255 * (1 - colorAccuracy)),
   Int.floor ((g : ℚ) * colorAccuracy + brightness * 255 * (1 - colorAccuracy)),
   Int.floor ((b : ℚ) * colorAccuracy + brightness * 255 * (1 - colorAccuracy)))

/-- A frame whose pixels all carry one RGB color (alpha 255), flattened the
way `getImageData` lays out its `data` array. -/
def uniformPixels (r0 g0 b0 : ℕ) : ℕ → ℕ := fun i =>
  if i % 4 = 0 then r0 else if i % 4 = 1 then g0 else if i % 4 = 2 then b0 else 255

/-- States of the external `MediaRecorder` held by `VideoExporter`:
`none` models the initial `null` field, the others the recorder's
`recording` / `inactive` states. -/
inductive RecorderState where
  | vacant
  | recording
  | inactive
deriving DecidableEq

/-- Mutable fields of `VideoExporter` that the export session logic touches:
`isRecording`, `recordedChunks` (chunks modelled by their byte sizes) and the
`mediaRecorder` state. -/
structure ExporterState where
  isRecording : Bool
  recordedChunks : List ℕ
  recorder : RecorderState
deriving DecidableEq

/-- Fresh `VideoExporter` right after construction. -/
def exporterInit : ExporterState :=
  { isRecording := false, recordedChunks := [], recorder := RecorderState.vacant }

/-- `VideoExporter.startExport` (lines 420-511).  Unconditionally it sets
`recordedChunks = []` and `isRecording = true`, then tries to construct and
start a `MediaRecorder` (`ctorOk` tells whether the constructor succeeds):
on success it returns `true` with a recording recorder; on failure the
`catch` sets `isRecording = false` and returns `false` (the old recorder
field keeps its previous value because the assignment never ran).
There is no check of `isRecording` at entry. -/
def exporterStartExport (ctorOk : Bool) (s : ExporterState) : ExporterState × Bool :=
  if ctorOk then
    ({ isRecording := true, recordedChunks := [], recorder := RecorderState.recording }, true)
  else
    ({ isRecording := false, recordedChunks := [], recorder := s.recorder }, false)

/-- The `ondataavailable` handler (lines 482-486): push the chunk when
`event.data.size > 0`. -/
def exporterOnData (size : ℕ) (s : ExporterState) : ExporterState :=
  if 0 < size then { s with recordedChunks := s.recordedChunks ++ [size] } else s

/-- The `onerror` handler (lines 497-500): log the error and set
`isRecording = false`.  Nothing else is touched. -/
def exporterOnError (s : ExporterState) : ExporterState :=
  { s with isRecording := false }

/-- `VideoExporter.stopExport` (lines 521-538): when the recorder is absent or
`inactive` it returns `null`; otherwise it stops the recorder, assembles the
blob from `recordedChunks` (modelled as the chunk list itself), clears the
chunk list and clears `isRecording`. -/
def exporterStopExport (s : ExporterState) : ExporterState × Option (List ℕ) :=
  match s.recorder with
  | RecorderState.vacant => (s, none)
  | RecorderState.inactive => (s, none)
  | RecorderState.recording =>
      ({ isRecording := false, recordedChunks := [], recorder := RecorderState.inactive },
       some s.recordedChunks)

/-- Priority list probed by `VideoExporter.getSupportedMimeType` (lines
541-549). -/
def mimeTypePriority : List String :=
  ["video/webm;codecs=vp9,opus",
   "video/webm;codecs=vp8,opus",
   "video/webm;codecs=vp9",
   "video/webm;codecs=vp8",
   "video/webm",
   "video/mp4;codecs=h264,aac",
   "video/mp4"]

/-- `VideoExporter.getSupportedMimeType` (lines 540-559): first supported
entry of the priority list, falling back to `video/webm`. -/
def getSupportedMimeType (isTypeSupported : String → Bool) : String :=
  (mimeTypePriority.find? isTypeSupported).getD "video/webm"

/-- Character-list prefix test (`pat` read off at the head of `l`). -/
def matchesAt : List Char → List Char → Bool
  | [], _ => true
  | _ :: _, [] => false
  | p :: ps, c :: cs => p == c && matchesAt ps cs

/-- Substring test, modelling JavaScript `String.prototype.includes`. -/
def hasSubstring (pat : List Char) : List Char → Bool
  | [] => pat.isEmpty
  | c :: rest => matchesAt pat (c :: rest) || hasSubstring pat rest

/-- The condition `this.video.src.includes('.mp4')` from
`VideoToASCIIApp.finishExport` (main.js line 227). -/
def srcIncludesMp4 (src : String) : Bool :=
  hasSubstring ".mp4".toList src.toList

/-- Filename chosen by `VideoToASCIIApp.finishExport` (main.js line 227):
`ascii-video.mp4` when the source URL contains `.mp4`, else
`ascii-video.webm`.  The recorder's mime type plays no part. -/
def finishExportFilename (src : String) : String :=
  if srcIncludesMp4 src then "ascii-video.mp4" else "ascii-video.webm"

/-- Modelled from the spec: the container family named by a mime-type string,
used to say which container the encode sink actually produced. -/
def extensionOfContainer (mime : String) : String :=
  if hasSubstring "webm".toList mime.toList then "webm"
  else if hasSubstring "mp4".toList mime.toList then "mp4"
  else "bin"

/-- Modelled from the spec: whether a filename ends in `"." ++ ext`. -/
def filenameHasExtension (filename ext : String) : Bool :=
  matchesAt (String.append "." ext).toList.reverse filename.toList.reverse

/-- App-level state of `VideoToASCIIApp` relevant to the export lifecycle. -/
structure AppState where
  isExporting : Bool
  exporter : ExporterState
deriving DecidableEq

/-- `VideoToASCIIApp.startExport` (main.js lines 179-215): an early return
when `isExporting` is already set; otherwise it sets `isExporting = true`,
calls `VideoExporter.startExport` and, when that returns `false`, resets
`isExporting` to `false`. -/
def appStartExport (ctorOk : Bool) (s : AppState) : AppState :=
  if s.isExporting then s
  else
    let res := exporterStartExport ctorOk s.exporter
    if res.2 then { isExporting := true, exporter := res.1 }
    else { isExporting := false, exporter := res.1 }

/-- Concrete exporter state with an active recording session and one buffered
chunk, used to exercise `exporterStartExport` mid-session. -/
def recordingExporter : ExporterState :=
  { isRecording := true, recordedChunks := [3], recorder := RecorderState.recording }

/-- Capability probe of an environment that supports only plain
`video/webm`. -/
def webmOnlySupport : String → Bool := fun t => t == "video/webm"

/-- Sum of a list map whose function is constant on the list. -/
theorem sum_map_of_const {α : Type} (l : List α) (f : α → ℕ) (v : ℕ)
    (hf : ∀ a ∈ l, f a = v) : (l.map f).sum = l.length * v := by
  induction l with
  | nil => simp
  | cons a t ih =>
      have ht : (t.map f).sum = t.length * v := ih fun b hb => hf b (List.mem_cons_of_mem a hb)
      have ha : f a = v := hf a (List.mem_cons_self a t)
      simp [ha, ht, Nat.succ_mul]
      omega

/-- A cell index below `w / s` puts the cell origin strictly inside the
frame. -/
theorem origin_lt_of_lt_div {w s c : ℕ} (hs : 0 < s) (hc : c < w / s) : c * s < w := by
  have h1 : (c + 1) * s ≤ w / s * s := Nat.mul_le_mul_right s hc
  have h2 : w / s * s ≤ w := Nat.div_mul_le_self w s
  nlinarith

/-- Every cell of the computed grid samples at least its origin pixel, so the
`count` accumulated by `processPixels` is positive. -/
theorem cellSamples_length_pos {w h s cx cy : ℕ} (hs : 0 < s)
    (hcx : cx < w / s) (hcy : cy < h / s) : 0 < (cellSamples w h s cx cy).length := by
  have hmem : (cx * s + 0, cy * s + 0) ∈ cellSamples w h s cx cy := by
    unfold cellSamples
    rw [List.mem_filter]
    constructor
    · rw [List.mem_flatMap]
      refine ⟨0, List.mem_range.mpr hs, ?_⟩
      rw [List.mem_map]
      exact ⟨0, List.mem_range.mpr hs, rfl⟩
    · have h1 : cx * s < w := origin_lt_of_lt_div hs hcx
      have h2 : cy * s < h := origin_lt_of_lt_div hs hcy
      simp
      omega
  exact List.length_pos.mpr (List.ne_nil_of_mem hmem)

/-- On a frame of one uniform color every grid cell of `processCell` carries
exactly that color and the glyph byte computed from it. -/
theorem uniform_cell (r0 g0 b0 : ℕ) (w h s rampLen cx cy : ℕ) (hs : 0 < s)
    (hcx : cx < w / s) (hcy : cy < h / s)
    (hr : r0 ≤ 255) (hg : g0 ≤ 255) (hb : b0 ≤ 255) :
    processCell (uniformPixels r0 g0 b0) w h s rampLen cx cy =
      { r := r0, g := g0, b := b0,
        glyph := (glyphIndexOf (calculateBrightness r0 g0 b0) rampLen).toNat % 256 } := by
  have hpos := cellSamples_length_pos hs hcx hcy (w := w) (h := h)
  set samples := cellSamples w h s cx cy with hsdef
  have hrs : (samples.map fun p => uniformPixels r0 g0 b0 ((p.2 * w + p.1) * 4)).sum =
      samples.length * r0 := by
    apply sum_map_of_const
    intro p _
    have : (p.2 * w + p.1) * 4 % 4 = 0 := Nat.mul_mod_left _ 4
    simp [uniformPixels, this]
  have hgs : (samples.map fun p => uniformPixels r0 g0 b0 ((p.2 * w + p.1) * 4 + 1)).sum =
      samples.length * g0 := by
    apply sum_map_of_const
    intro p _
    have : ((p.2 * w + p.1) * 4 + 1) % 4 = 1 := by omega
    simp [uniformPixels, this]
  have hbs : (samples.map fun p => uniformPixels r0 g0 b0 ((p.2 * w + p.1) * 4 + 2)).sum =
      samples.length * b0 := by
    apply sum_map_of_const
    intro p _
    have : ((p.2 * w + p.1) * 4 + 2) % 4 = 2 := by omega
    simp [uniformPixels, this]
  rw [processCell]
  simp only [← hsdef, if_pos hpos, hrs, hgs, hbs]
  rw [Nat.mul_div_cancel_left r0 hpos, Nat.mul_div_cancel_left g0 hpos,
      Nat.mul_div_cancel_left b0 hpos,
      Nat.mod_eq_of_lt (by omega : r0 < 256),
      Nat.mod_eq_of_lt (by omega : g0 < 256),
      Nat.mod_eq_of_lt (by omega : b0 < 256)]

/-- Bound on the glyph selection for byte-valued channels: the luminance
weights sum to 1 so brightness stays in `[0,1]` and the selected index stays
at most 9 for the 10-glyph ramp. -/
theorem glyphIndexOf_byte_le (r g b : ℕ) (hr : r ≤ 255) (hg : g ≤ 255) (hb : b ≤ 255) :
    (glyphIndexOf (calculateBrightness r g b) 10).toNat ≤ 9 := by
  have hrq : (r : ℚ) ≤ 255 := by exact_mod_cast hr
  have hgq : (g : ℚ) ≤ 255 := by exact_mod_cast hg
  have hbq : (b : ℚ) ≤ 255 := by exact_mod_cast hb
  have hbr : calculateBrightness r g b ≤ 1 := by
    rw [calculateBrightness, div_le_one (by norm_num : (0:ℚ) < 255)]
    linarith
  have hmul : calculateBrightness r g b * (((10:ℕ) : ℚ) - 1) ≤ 9 := by
    push_cast
    nlinarith
  have hfl : glyphIndexOf (calculateBrightness r g b) 10 ≤ 9 := by
    rw [glyphIndexOf]
    calc Int.floor (calculateBrightness r g b * (((10:ℕ) : ℚ) - 1)) ≤ Int.floor ((9:ℚ)) :=
          Int.floor_le_floor hmul
      _ = 9 := by norm_num
  exact Int.toNat_le.mpr hfl

/-- The glyph byte stored from the truncated channel means never exceeds 9. -/
theorem glyph_store_le_nine (a b c : ℕ) :
    (glyphIndexOf (calculateBrightness (a % 256) (b % 256) (c % 256)) 10).toNat % 256 ≤ 9 := by
  have h255 : ∀ n : ℕ, n % 256 ≤ 255 := fun n =>
    Nat.le_of_lt_succ (Nat.mod_lt n (by norm_num))
  have h := glyphIndexOf_byte_le (a % 256) (b % 256) (c % 256) (h255 a) (h255 b) (h255 c)
  exact le_trans (Nat.mod_le _ _) h

/-- Every glyph byte `processCell` writes for the default ramp is at most 9,
including the zero fill of skipped cells. -/
theorem processCell_glyph_le_nine (pixels : ℕ → ℕ) (w h s cx cy : ℕ) :
    (processCell pixels w h s asciiChars.length cx cy).glyph ≤ 9 := by
  rw [processCell]
  dsimp only
  split
  · exact glyph_store_le_nine _ _ _
  · exact Nat.zero_le 9

/-- Claim C1 (code bug evidence).  On the CPU path a uniform red 2×2 frame
processed with cell size 2 and `colorAccuracy = 0` is rendered with cell
color `(255, 0, 0)` — the raw mean color — although the claimed blend
`meanColor * 0 + gray * 1` demands the gray `(76, 76, 76)`
(`round(0.299 * 255) = 76`).  `processPixels` receives `colorAccuracy` in its
options but never reads it, and the `Uint8Array` branch of `renderASCII`
draws the processed bytes unblended. -/
theorem cpuPath_renders_unblended_meanColor :
    cpuPathRender (uniformPixels 255 0 0) 2 2 2 0 =
      [{ colorR := 255, colorG := 0, colorB := 0, glyph := some ':' }] ∧
    ¬(255 = 76 ∧ 0 = 76) := by
  have h2 : (glyphIndexOf (calculateBrightness 255 0 0) 10).toNat = 2 := by
    norm_num [glyphIndexOf, calculateBrightness]
    rfl
  have h : processCell (uniformPixels 255 0 0) 2 2 2 10 0 0 =
      { r := 255, g := 0, b := 0, glyph := 2 } := by
    rw [processCell]
    rw [show cellSamples 2 2 2 0 0 = [(0,0),(1,0),(0,1),(1,1)] from by decide]
    norm_num [uniformPixels, h2]
  have hp : processPixels (uniformPixels 255 0 0) 2 2 2 0 10 =
      [{ r := 255, g := 0, b := 0, glyph := 2 }] := by
    simp [processPixels, List.range_succ, h]
  refine ⟨?_, by decide⟩
  have hlen : asciiChars.length = 10 := rfl
  simp [cpuPathRender, renderASCIIProcessed, hlen, hp]
  rfl

/-- Claim C2.  For a frame that is uniformly one color, every cell produced
by the CPU pixel processor carries exactly that mean color, and the glyph
byte of every cell is the same value computed from that color: the per-cell
average over only the in-bounds pixels divides by the actual sampled count,
which reproduces the uniform color exactly. -/
theorem uniform_frame_cells (r0 g0 b0 w h s rampLen : ℕ) (ca : ℚ) (hs : 0 < s)
    (hr : r0 ≤ 255) (hg : g0 ≤ 255) (hb : b0 ≤ 255) :
    ∀ c ∈ processPixels (uniformPixels r0 g0 b0) w h s ca rampLen,
      c = { r := r0, g := g0, b := b0,
            glyph := (glyphIndexOf (calculateBrightness r0 g0 b0) rampLen).toNat % 256 } := by
  intro c hc
  rw [processPixels, List.mem_flatMap] at hc
  obtain ⟨cy, hcy, hc⟩ := hc
  rw [List.mem_map] at hc
  obtain ⟨cx, hcx, rfl⟩ := hc
  exact uniform_cell r0 g0 b0 w h s rampLen cx cy hs
    (List.mem_range.mp hcx) (List.mem_range.mp hcy) hr hg hb

/-- Witness for C2 at a concrete 5×4 frame of uniform color (10, 20, 30)
with cell size 2: the first grid cell equals the predicted cell. -/
theorem uniform_frame_cells_witness :
    processCell (uniformPixels 10 20 30) 5 4 2 10 0 0 =
      { r := 10, g := 20, b := 30,
        glyph := (glyphIndexOf (calculateBrightness 10 20 30) 10).toNat % 256 } :=
  uniform_frame_cells 10 20 30 5 4 2 10 0 (by decide) (by decide) (by decide) (by decide) _
    (List.mem_flatMap.mpr ⟨0, by decide, List.mem_map.mpr ⟨0, by decide, rfl⟩⟩)

/-- Claim C3.  For every frame of width `w`, height `h` and positive cell
size `s`, the grid computed by the CPU pixel processor has exactly
`⌊w/s⌋ * ⌊h/s⌋` cells, `processFrame` derives the same dimensions, and every
cell of the output is freshly computed from the current cell size — there is
no other source of cells, so a reconversion after a cell-size change carries
nothing over from the prior size. -/
theorem grid_dims_floor_div (pixels : ℕ → ℕ) (w h s : ℕ) (ca : ℚ) (rampLen : ℕ)
    (hs : 0 < s) :
    (processPixels pixels w h s ca rampLen).length = (w / s) * (h / s) ∧
    processFrameDims w h s = (w / s, h / s) ∧
    ∀ c ∈ processPixels pixels w h s ca rampLen,
      ∃ cx < w / s, ∃ cy < h / s, c = processCell pixels w h s rampLen cx cy := by
  refine ⟨?_, rfl, ?_⟩
  · rw [processPixels, List.length_flatMap]
    have h1 : ∀ a ∈ List.range (h / s),
        (List.length ∘ fun cy => (List.range (w / s)).map fun cx =>
          processCell pixels w h s rampLen cx cy) a = w / s := by
      intro a _
      simp
    rw [sum_map_of_const _ _ (w / s) h1, List.length_range, Nat.mul_comm]
  · intro c hc
    rw [processPixels, List.mem_flatMap] at hc
    obtain ⟨cy, hcy, hc⟩ := hc
    rw [List.mem_map] at hc
    obtain ⟨cx, hcx, rfl⟩ := hc
    exact ⟨cx, List.mem_range.mp hcx, cy, List.mem_range.mp hcy, rfl⟩

/-- Witness for C3 at a concrete 5×4 frame with cell size 2: the output has
`⌊5/2⌋ * ⌊4/2⌋ = 4` cells. -/
theorem grid_dims_floor_div_witness :
    (processPixels (fun k => k % 7) 5 4 2 0 10).length = 5 / 2 * (4 / 2) :=
  (grid_dims_floor_div (fun k => k % 7) 5 4 2 0 10 (by decide)).1

/-- Claim C4 (counterexample).  The character selection applies no clamping:
at brightness 2 it yields index 18 for the 10-glyph ramp, not the clamped
index 9 the claim describes. -/
theorem glyph_mapping_not_clamped_cex :
    glyphIndexOf 2 10 = 18 ∧ ¬(glyphIndexOf 2 10 ≤ 9) := by
  have h : glyphIndexOf 2 10 = 18 := by
    rw [glyphIndexOf]
    norm_num
  exact ⟨h, by rw [h]; norm_num⟩

/-- Claim C4 (amended).  For a non-empty ramp and brightness already in
`[0,1]`, the unclamped index `⌊brightness * (len - 1)⌋` lies in
`[0, len-1]`; no clamping is performed by the code, so only in-range
brightness guarantees an in-range index. -/
theorem glyph_index_in_range (b : ℚ) (rampLen : ℕ) (hlen : 1 ≤ rampLen)
    (h0 : 0 ≤ b) (h1 : b ≤ 1) :
    0 ≤ glyphIndexOf b rampLen ∧ glyphIndexOf b rampLen ≤ (rampLen : ℤ) - 1 := by
  have hL : (1:ℚ) ≤ (rampLen : ℚ) := by exact_mod_cast hlen
  constructor
  · apply Int.le_floor.mpr
    push_cast
    nlinarith
  · have hcast : ((rampLen : ℚ) - 1) = (((rampLen : ℤ) - 1 : ℤ) : ℚ) := by push_cast; ring
    rw [glyphIndexOf]
    calc Int.floor (b * ((rampLen : ℚ) - 1)) ≤ Int.floor ((rampLen : ℚ) - 1) := by
          apply Int.floor_le_floor
          nlinarith
      _ = (rampLen : ℤ) - 1 := by rw [hcast, Int.floor_intCast]

/-- Witness for the amended C4 at brightness 1/2 on the 10-glyph ramp. -/
theorem glyph_index_in_range_witness :
    0 ≤ glyphIndexOf (1/2) 10 ∧ glyphIndexOf (1/2) 10 ≤ ((10:ℕ) : ℤ) - 1 :=
  glyph_index_in_range (1/2) 10 (by norm_num) (by norm_num) (by norm_num)

/-- Claim C5.  The brightness-to-glyph mapping is monotone non-decreasing:
for a non-empty ramp and brightness values `b1 < b2` in `[0,1]`, the index
selected for `b1` is at most the index selected for `b2`. -/
theorem glyph_mapping_monotone (b1 b2 : ℚ) (rampLen : ℕ) (hlen : 1 ≤ rampLen)
    (h0 : 0 ≤ b1) (hlt : b1 < b2) (h1 : b2 ≤ 1) :
    glyphIndexOf b1 rampLen ≤ glyphIndexOf b2 rampLen := by
  apply Int.floor_le_floor
  apply mul_le_mul_of_nonneg_right hlt.le
  have hL : (1:ℚ) ≤ (rampLen : ℚ) := by exact_mod_cast hlen
  linarith

/-- Witness for C5 at brightness 1/4 and 3/4 on the 10-glyph ramp. -/
theorem glyph_mapping_monotone_witness :
    glyphIndexOf (1/4) 10 ≤ glyphIndexOf (3/4) 10 :=
  glyph_mapping_monotone (1/4) (3/4) 10 (by norm_num) (by norm_num) (by norm_num) (by norm_num)

/-- Claim C6.  Every cell of the computed grid samples at least one in-bounds
pixel, so the guarded division of `processPixels` never divides by zero; and
a cell whose sample count is zero is left at the zero fill by the guard
instead of being divided. -/
theorem cell_zero_count_omitted (pixels : ℕ → ℕ) (w h s rampLen cx cy : ℕ)
    (hs : 0 < s) (hcx : cx < w / s) (hcy : cy < h / s) :
    0 < (cellSamples w h s cx cy).length ∧
    ∀ cx' cy', (cellSamples w h s cx' cy').length = 0 →
      processCell pixels w h s rampLen cx' cy' = { r := 0, g := 0, b := 0, glyph := 0 } := by
  refine ⟨cellSamples_length_pos hs hcx hcy, ?_⟩
  intro cx' cy' h0
  rw [processCell]
  simp [h0]

/-- Witness for C6 at a 5×4 frame with cell size 2 and cell (0, 1). -/
theorem cell_zero_count_omitted_witness :
    0 < (cellSamples 5 4 2 0 1).length :=
  (cell_zero_count_omitted (fun k => k % 7) 5 4 2 10 0 1 (by decide) (by decide) (by decide)).1

/-- Claim C7 (counterexample).  Calling `VideoExporter.startExport` while a
recording session is already active is not rejected: on a state that is
recording with a buffered chunk, the call returns `true`, a fresh session is
recording, and the previous session's chunks have been discarded — the state
changed instead of the call being refused. -/
theorem exporter_startExport_not_rejected :
    (exporterStartExport true recordingExporter).2 = true ∧
    (exporterStartExport true recordingExporter).1.isRecording = true ∧
    (exporterStartExport true recordingExporter).1.recordedChunks = [] ∧
    (exporterStartExport true recordingExporter).1 ≠ recordingExporter := by decide

/-- Claim C7 (amended).  The rejection lives one layer up: the app controller
`VideoToASCIIApp.startExport` returns early while `isExporting` is set,
leaving the whole state unchanged; the capture pipeline itself restarts
unconditionally. -/
theorem app_startExport_rejected_when_exporting (ctorOk : Bool) (s : AppState)
    (h : s.isExporting = true) : appStartExport ctorOk s = s := by
  simp [appStartExport, h]

/-- Witness for the amended C7 on a concrete exporting app state. -/
theorem app_startExport_rejected_witness :
    appStartExport true { isExporting := true, exporter := recordingExporter } =
      { isExporting := true, exporter := recordingExporter } :=
  app_startExport_rejected_when_exporting true
    { isExporting := true, exporter := recordingExporter } rfl

/-- Claim C8 (counterexample).  The `onerror` handler does not discard the
buffered segments: on a recording state with chunk `[5]`, after the handler
runs the chunk list is still `[5]`, not empty. -/
theorem onerror_retains_chunks_cex :
    (exporterOnError
      { isRecording := true, recordedChunks := [5], recorder := RecorderState.recording
      }).recordedChunks = [5] ∧
    ([5] : List ℕ) ≠ [] := by decide

/-- Claim C8 (amended).  On an encode-sink error the handler only clears
`isRecording` (ending frame feeding); the buffered chunks and the recorder
field are retained unchanged, and no discard or caller notification happens
in the handler. -/
theorem onerror_stops_recording_keeps_chunks (s : ExporterState) :
    (exporterOnError s).isRecording = false ∧
    (exporterOnError s).recordedChunks = s.recordedChunks ∧
    (exporterOnError s).recorder = s.recorder :=
  ⟨rfl, rfl, rfl⟩

/-- Claim C9 (counterexample).  In an environment whose encode sink supports
only `video/webm`, a source URL containing `.mp4` is downloaded as
`ascii-video.mp4`: the filename extension contradicts the container actually
used by the sink. -/
theorem filename_ext_mismatch_cex :
    getSupportedMimeType webmOnlySupport = "video/webm" ∧
    finishExportFilename "blob:demo.mp4" = "ascii-video.mp4" ∧
    filenameHasExtension (finishExportFilename "blob:demo.mp4")
      (extensionOfContainer (getSupportedMimeType webmOnlySupport)) = false := by decide

/-- Claim C9 (amended).  The filename extension is inferred from the source
video's URL, not from the recorder's mime type: whenever the sink selected
plain `video/webm` but the source URL contains `.mp4`, the downloaded name
carries the `mp4` extension and not the `webm` one. -/
theorem filename_ext_from_src_url (src : String) (isTypeSupported : String → Bool)
    (h : srcIncludesMp4 src = true)
    (hw : getSupportedMimeType isTypeSupported = "video/webm") :
    extensionOfContainer (getSupportedMimeType isTypeSupported) = "webm" ∧
    filenameHasExtension (finishExportFilename src) "webm" = false ∧
    filenameHasExtension (finishExportFilename src) "mp4" = true := by
  rw [hw]
  refine ⟨by decide, ?_, ?_⟩ <;> rw [finishExportFilename, h] <;> decide

/-- Witness for the amended C9 on a concrete source URL and probe. -/
theorem filename_ext_from_src_url_witness :
    extensionOfContainer (getSupportedMimeType webmOnlySupport) = "webm" ∧
    filenameHasExtension (finishExportFilename "blob:clip.mp4") "webm" = false ∧
    filenameHasExtension (finishExportFilename "blob:clip.mp4") "mp4" = true :=
  filename_ext_from_src_url "blob:clip.mp4" webmOnlySupport (by decide) (by decide)

/-- Claim C10.  For byte-valued input frames and the default 10-glyph ramp,
every glyph byte `processCell` stores is a valid ramp index, so the unguarded
lookup `asciiChars[charIndex]` in `renderASCII` always finds a glyph. -/
theorem glyph_byte_within_ramp (pixels : ℕ → ℕ) (w h s cx cy : ℕ)
    (hpix : ∀ i, pixels i ≤ 255) :
    (processCell pixels w h s asciiChars.length cx cy).glyph < asciiChars.length ∧
    (asciiChars.get? (processCell pixels w h s asciiChars.length cx cy).glyph).isSome := by
  have h9 := processCell_glyph_le_nine pixels w h s cx cy
  have hsome : ∀ n, n ≤ 9 → (asciiChars.get? n).isSome := by decide
  exact ⟨lt_of_le_of_lt h9 (by decide), hsome _ h9⟩

/-- Witness for C10 on a concrete 3×3 frame. -/
theorem glyph_byte_within_ramp_witness :
    (processCell (fun k => k % 7) 3 3 2 asciiChars.length 0 0).glyph < asciiChars.length ∧
    (asciiChars.get? (processCell (fun k => k % 7) 3 3 2 asciiChars.length 0 0).glyph).isSome :=
  glyph_byte_within_ramp (fun k => k % 7) 3 3 2 0 0 (fun i => by
    show i % 7 ≤ 255
    omega)
